import Mathlib

/-!
Verification development for the `rust-mathelizer` expression evaluator
(`src/lib.rs`): a tokenizer, an infix-to-postfix converter (Shunting-Yard),
and a stack-based evaluator of the resulting token sequence.

Modelling conventions, matching the Rust source:

* Rust panic sites (`unwrap` on `pop`, `parse`, the unknown-character panic,
  the unknown-operator panic) are shallowly embedded as explicit error
  values of type `MathError`; the error-kind names follow the taxonomy used
  by the project documentation for those same panic sites
  (`InvalidCharacter`, `NumericOverflow` for the `u64` parse failure,
  `StackUnderflow` for a failing stack pop inside the operator branch,
  `EmptyExpression` for the failing final pop).
* `u64` literals become `Nat` together with the explicit bound `2^64` that
  the `curr_number.parse::<u64>().unwrap()` call enforces.
* `f64` values are embedded as `FVal`: exact rationals extended with the two
  infinities and NaN, with the IEEE special-value rules for the four
  operations.  Rounding and signed zeros are not modelled; every value
  reached by the properties proved below is exactly representable, and the
  error/success behaviour of the evaluator never depends on rounding.
* The tokenizer's inner digit-run loop (peek/next over the `Peekable`
  iterator) is embedded by threading the partially accumulated digit run as
  an `Option Nat` through the character scan; the accumulated value equals
  the `parse` of the collected run, and the run is flushed — with the
  overflow check, and the implicit-multiplication peek at `(` — exactly when
  the run ends (non-digit character or end of input), as in the source.
-/

instance {ε α : Type} [DecidableEq ε] [DecidableEq α] : DecidableEq (Except ε α) :=
  fun x y =>
    match x, y with
    | Except.ok a, Except.ok b =>
      decidable_of_iff (a = b) ⟨fun h => by rw [h], fun h => by injection h⟩
    | Except.error a, Except.error b =>
      decidable_of_iff (a = b) ⟨fun h => by rw [h], fun h => by injection h⟩
    | Except.ok _, Except.error _ => isFalse (fun h => by injection h)
    | Except.error _, Except.ok _ => isFalse (fun h => by injection h)

/-- `'0'..='9'` match guard of the tokenizer. -/
def isDigit (c : Char) : Bool := '0' ≤ c && c ≤ '9'

/-- Numeric value of a decimal digit character. -/
def digitVal (c : Char) : Nat := c.toNat - '0'.toNat

/-- `u64::MAX + 1`: the `curr_number.parse::<u64>()` call succeeds exactly
for values strictly below this bound. -/
def u64Bound : Nat := 18446744073709551616

/-- The `Token` enum of `src/lib.rs`. -/
inductive Token
  | Number : Nat → Token
  | Plus : Token
  | Min : Token
  | Prod : Token
  | Dev : Token
  | Left : Token
  | Right : Token
deriving DecidableEq

/-- Error kinds for the panic sites of the source (see the header comment). -/
inductive MathError
  | InvalidCharacter : Char → List Char → MathError
  | NumericOverflow : MathError
  | StackUnderflow : MathError
  | EmptyExpression : MathError
  | InvalidOperator : Token → MathError
deriving DecidableEq

/-- Flush a pending digit run before handling the non-digit character `c`
(or, for the end of input, `tokAux` inlines the same check): the run's
accumulated value is parsed as `u64` (overflow is the parse panic), and the
peek-at-`(` implicit-multiplication insertion of the source fires here. -/
def flushTokens (pend : Option Nat) (c : Char) : Except MathError (List Token) :=
  match pend with
  | none => Except.ok []
  | some n =>
    if n < u64Bound then
      Except.ok (Token.Number n :: if c = '(' then [Token.Prod] else [])
    else Except.error MathError.NumericOverflow

/-- Tokens emitted for one non-digit character `c`, with one character of
lookahead into `cs` for the minus-before-parenthesis rewrite; mirrors the
`match ch` arms `'*'`, `'/'`, `'+'`, `'-'`, `'('`, `')'` and the
unknown-character panic of `Expression::tokenize`. -/
def opTokens (full : List Char) (c : Char) (cs : List Char) : Except MathError (List Token) :=
  if c = '*' then Except.ok [Token.Prod]
  else if c = '/' then Except.ok [Token.Dev]
  else if c = '+' then Except.ok [Token.Plus]
  else if c = '-' then
    if cs.head? = some '(' then
      Except.ok [Token.Plus, Token.Left, Token.Number 0, Token.Min,
        Token.Number 1, Token.Right, Token.Prod]
    else Except.ok [Token.Min]
  else if c = '(' then Except.ok [Token.Left]
  else if c = ')' then Except.ok [Token.Right]
  else Except.error (MathError.InvalidCharacter c full)

/-- Character scan of `Expression::tokenize`.  `full` is the whole
(space-stripped) input, used by the unknown-character panic message; the
`Option Nat` argument is the digit run currently being collected. -/
def tokAux (full : List Char) : Option Nat → List Char → Except MathError (List Token)
  | none, [] => Except.ok []
  | some n, [] =>
    if n < u64Bound then Except.ok [Token.Number n]
    else Except.error MathError.NumericOverflow
  | pend, c :: cs =>
    if isDigit c then
      tokAux full (some (pend.getD 0 * 10 + digitVal c)) cs
    else do
      let pre ← flushTokens pend c
      let cur ← opTokens full c cs
      let rest ← tokAux full none cs
      Except.ok (pre ++ cur ++ rest)

/-- `Expression::tokenize` of `src/lib.rs`. -/
def tokenize (expr : List Char) : Except MathError (List Token) :=
  tokAux expr none expr

/-- `Token::precedence`; `none` stands for the panic on non-operator
tokens (which is unreachable from `to_post`). -/
def precedence : Token → Option Nat
  | Token.Prod => some 1
  | Token.Dev => some 1
  | Token.Plus => some 0
  | Token.Min => some 0
  | _ => none

/-- The `Token::precedence(top) >= Token::precedence(&operator)` comparison
of `to_post`; both arguments are genuine operators at the only call site,
so the `false` default for a missing precedence is never exercised. -/
def precGE (top op : Token) : Bool :=
  match precedence top, precedence op with
  | some a, some b => decide (b ≤ a)
  | _, _ => false

/-- The `Token::Right` arm of `to_post`: pop the operator stack into the
output until a `Left` is popped and discarded; an empty stack just stops
(the source has no unbalanced-bracket check).  The head of the list is the
top of the stack; the first component is the popped output, the second the
remaining stack. -/
def popUntilLeft : List Token → List Token × List Token
  | [] => ([], [])
  | t :: rest =>
    if t = Token.Left then ([], rest)
    else
      let p := popUntilLeft rest
      (t :: p.1, p.2)

/-- The operator arm's inner `while` of `to_post`: pop stacked operators of
greater-or-equal precedence into the output, stopping at a `Left` marker or
at a strictly smaller precedence. -/
def popWhileGE (op : Token) : List Token → List Token × List Token
  | [] => ([], [])
  | t :: rest =>
    if t = Token.Left then ([], t :: rest)
    else if precGE t op then
      let p := popWhileGE op rest
      (t :: p.1, p.2)
    else ([], t :: rest)

/-- Main loop of `Expression::to_post` over the input token sequence,
carrying the operator stack (head = top).  `[]` input flushes the remaining
operator stack into the output in pop order, as the final `while` of the
source does. -/
def toPostAux : List Token → List Token → List Token
  | [], opStack => opStack
  | Token.Number n :: ts, opStack => Token.Number n :: toPostAux ts opStack
  | Token.Left :: ts, opStack => toPostAux ts (Token.Left :: opStack)
  | Token.Right :: ts, opStack =>
    let p := popUntilLeft opStack
    p.1 ++ toPostAux ts p.2
  | op :: ts, opStack =>
    let p := popWhileGE op opStack
    p.1 ++ toPostAux ts (op :: p.2)

/-- `Expression::to_post` of `src/lib.rs` (Shunting-Yard). -/
def to_post (original : List Token) : List Token :=
  toPostAux original []

/-- Greatest common divisor by Euclid's algorithm with an explicit fuel
argument (the fuel only needs to exceed the first operand, which strictly
decreases at every step), so that it is structurally recursive and reduces
inside the kernel. -/
def gcdFuel : Nat → Nat → Nat → Nat
  | 0, _, n => n
  | fuel + 1, m, n => if m = 0 then n else gcdFuel fuel (n % m) m

/-- `myGcd m n` is Euclid's gcd of `m` and `n`. -/
def myGcd (m n : Nat) : Nat := gcdFuel (m + 1) m n

/-- Exact rational numbers as a normalized numerator/denominator pair
(denominator positive, fraction in lowest terms when built through
`MRat.norm`); structural equality then coincides with rational equality. -/
structure MRat where
  num : Int
  den : Nat
deriving DecidableEq

/-- Normalize the fraction `p / q` (with `q ≠ 0` at every call site). -/
def MRat.norm (p : Int) (q : Nat) : MRat :=
  let g := myGcd p.natAbs q
  if g = 0 then ⟨0, 1⟩
  else
    let n := p.natAbs / g
    ⟨if 0 ≤ p then (n : Int) else -(n : Int), q / g⟩

/-- The integer `i` as an `MRat`. -/
def MRat.ofInt (i : Int) : MRat := ⟨i, 1⟩

instance (n : Nat) : OfNat MRat n := ⟨MRat.ofInt (Int.ofNat n)⟩

instance : Neg MRat := ⟨fun a => ⟨-a.num, a.den⟩⟩

/-- Exact rational addition. -/
def MRat.add (a b : MRat) : MRat :=
  MRat.norm (a.num * (b.den : Int) + b.num * (a.den : Int)) (a.den * b.den)

/-- Exact rational subtraction. -/
def MRat.sub (a b : MRat) : MRat :=
  MRat.norm (a.num * (b.den : Int) - b.num * (a.den : Int)) (a.den * b.den)

/-- Exact rational multiplication. -/
def MRat.mul (a b : MRat) : MRat :=
  MRat.norm (a.num * b.num) (a.den * b.den)

/-- Exact rational division (caller ensures `b.num ≠ 0`). -/
def MRat.div (a b : MRat) : MRat :=
  MRat.norm (if 0 ≤ b.num then a.num * (b.den : Int) else -(a.num * (b.den : Int)))
    (a.den * b.num.natAbs)

/-- Exact model of the `f64` values reached by the evaluator: finite
rationals (all values in the proved properties are exactly representable,
so no rounding occurs) extended with the IEEE special values. -/
inductive FVal
  | fin : MRat → FVal
  | inf : FVal
  | ninf : FVal
  | nan : FVal
deriving DecidableEq

/-- IEEE addition on `FVal` (exact in the finite case). -/
def FVal.add : FVal → FVal → FVal
  | FVal.nan, _ => FVal.nan
  | _, FVal.nan => FVal.nan
  | FVal.fin a, FVal.fin b => FVal.fin (a.add b)
  | FVal.inf, FVal.ninf => FVal.nan
  | FVal.ninf, FVal.inf => FVal.nan
  | FVal.inf, _ => FVal.inf
  | _, FVal.inf => FVal.inf
  | FVal.ninf, _ => FVal.ninf
  | _, FVal.ninf => FVal.ninf

/-- IEEE subtraction on `FVal` (exact in the finite case). -/
def FVal.sub : FVal → FVal → FVal
  | FVal.nan, _ => FVal.nan
  | _, FVal.nan => FVal.nan
  | FVal.fin a, FVal.fin b => FVal.fin (a.sub b)
  | FVal.inf, FVal.inf => FVal.nan
  | FVal.ninf, FVal.ninf => FVal.nan
  | FVal.inf, _ => FVal.inf
  | FVal.ninf, _ => FVal.ninf
  | _, FVal.inf => FVal.ninf
  | _, FVal.ninf => FVal.inf

/-- IEEE multiplication on `FVal` (exact in the finite case). -/
def FVal.mul : FVal → FVal → FVal
  | FVal.nan, _ => FVal.nan
  | _, FVal.nan => FVal.nan
  | FVal.fin a, FVal.fin b => FVal.fin (a.mul b)
  | FVal.inf, FVal.fin b => if 0 < b.num then FVal.inf else if b.num < 0 then FVal.ninf else FVal.nan
  | FVal.fin a, FVal.inf => if 0 < a.num then FVal.inf else if a.num < 0 then FVal.ninf else FVal.nan
  | FVal.ninf, FVal.fin b => if 0 < b.num then FVal.ninf else if b.num < 0 then FVal.inf else FVal.nan
  | FVal.fin a, FVal.ninf => if 0 < a.num then FVal.ninf else if a.num < 0 then FVal.inf else FVal.nan
  | FVal.inf, FVal.inf => FVal.inf
  | FVal.inf, FVal.ninf => FVal.ninf
  | FVal.ninf, FVal.inf => FVal.ninf
  | FVal.ninf, FVal.ninf => FVal.inf

/-- IEEE division on `FVal` (exact in the finite case); a nonzero finite
value divided by zero gives the correspondingly signed infinity, `0/0`
gives NaN. -/
def FVal.div : FVal → FVal → FVal
  | FVal.nan, _ => FVal.nan
  | _, FVal.nan => FVal.nan
  | FVal.fin a, FVal.fin b =>
    if b.num ≠ 0 then FVal.fin (a.div b)
    else if 0 < a.num then FVal.inf
    else if a.num < 0 then FVal.ninf
    else FVal.nan
  | FVal.fin _, FVal.inf => FVal.fin 0
  | FVal.fin _, FVal.ninf => FVal.fin 0
  | FVal.inf, FVal.fin b => if 0 ≤ b.num then FVal.inf else FVal.ninf
  | FVal.ninf, FVal.fin b => if 0 ≤ b.num then FVal.ninf else FVal.inf
  | FVal.inf, FVal.inf => FVal.nan
  | FVal.inf, FVal.ninf => FVal.nan
  | FVal.ninf, FVal.inf => FVal.nan
  | FVal.ninf, FVal.ninf => FVal.nan

/-- Loop of `Expression::evaluate` over the stored postfix tokens, carrying
the value stack (head = top); mirrors the source exactly: a number is
pushed; for any other token `a` (top) then `b` are popped — a failing pop
is the `StackUnderflow` panic site — and `b OP a` is pushed, where a
non-operator token at this point is the unknown-operator panic; the final
`stack.pop().unwrap()` returns the top of whatever stack remains, and
panics (`EmptyExpression`) only when it is empty. -/
def evalAux : List Token → List FVal → Except MathError FVal
  | [], stack =>
    match stack with
    | v :: _ => Except.ok v
    | [] => Except.error MathError.EmptyExpression
  | Token.Number n :: ts, stack => evalAux ts (FVal.fin (MRat.ofInt n) :: stack)
  | op :: ts, stack =>
    match stack with
    | a :: b :: rest =>
      match op with
      | Token.Prod => evalAux ts (FVal.mul b a :: rest)
      | Token.Dev => evalAux ts (FVal.div b a :: rest)
      | Token.Plus => evalAux ts (FVal.add b a :: rest)
      | Token.Min => evalAux ts (FVal.sub b a :: rest)
      | other => Except.error (MathError.InvalidOperator other)
    | _ => Except.error MathError.StackUnderflow

/-- The `Expression` struct of `src/lib.rs`: the space-stripped original
text and the postfix token sequence. -/
structure Expression where
  original : List Char
  tokens : List Token
deriving DecidableEq

/-- `Expression::new`: strip space characters, tokenize, convert to postfix. -/
def Expression.new (expr : List Char) : Except MathError Expression :=
  let stripped := expr.filter (fun c => c != ' ')
  (fun ts => { original := stripped, tokens := to_post ts }) <$> tokenize stripped

/-- `Expression::evaluate`: run the postfix evaluator on the stored tokens. -/
def Expression.evaluate (e : Expression) : Except MathError FVal :=
  evalAux e.tokens []

/-- End-to-end pipeline on a string input: `Expression::new` followed by
`Expression::evaluate`. -/
def evaluateStr (s : String) : Except MathError FVal :=
  Expression.new s.toList >>= Expression.evaluate

/-- `tokenize` on a string input (as the unit tests of the source call it,
without space stripping). -/
def tokenizeStr (s : String) : Except MathError (List Token) :=
  tokenize s.toList

/-- Whether a token is a `Number` (the tokens the evaluator pushes rather
than pops for). -/
def Token.isNumber : Token → Bool
  | Token.Number _ => true
  | _ => false

/-- The character set `[0-9+-*/()]` that the specification's safety claim
quantifies over. -/
def isAllowed (c : Char) : Bool :=
  isDigit c || decide (c = '+') || decide (c = '-') || decide (c = '*')
    || decide (c = '/') || decide (c = '(') || decide (c = ')')

/-- Bracket-balance check used only to state the specification's
"well-balanced brackets" hypothesis (the source itself has none). -/
def bracketBal : List Char → Nat → Bool
  | [], d => d == 0
  | c :: cs, d =>
    if c = '(' then bracketBal cs (d + 1)
    else if c = ')' then d != 0 && bracketBal cs (d - 1)
    else bracketBal cs d

/-- A string of the claims' input alphabet is well-balanced when every `)`
closes an open `(` and all `(` are closed. -/
def balancedBrackets (l : List Char) : Bool := bracketBal l 0

/-! ## Helper lemmas -/

theorem exceptBind_ok {ε α β : Type} (a : α) (f : α → Except ε β) :
    (Except.ok a >>= f : Except ε β) = f a := rfl

theorem exceptBind_error {ε α β : Type} (e : ε) (f : α → Except ε β) :
    ((Except.error e : Except ε α) >>= f : Except ε β) = Except.error e := rfl

theorem isAllowed_of_isDigit {c : Char} (h : isDigit c = true) : isAllowed c = true := by
  simp [isAllowed, h]

theorem opTokens_invalid (full : List Char) {c : Char} (cs : List Char)
    (h : isAllowed c = false) :
    opTokens full c cs = Except.error (MathError.InvalidCharacter c full) := by
  simp only [isAllowed, Bool.or_eq_false_iff, decide_eq_false_iff_not] at h
  obtain ⟨⟨⟨⟨⟨⟨_, h1⟩, h2⟩, h3⟩, h4⟩, h5⟩, h6⟩ := h
  simp [opTokens, h1, h2, h3, h4, h5, h6]

theorem opTokens_ok (full : List Char) {c : Char} (cs : List Char)
    (h : isAllowed c = true) (hd : isDigit c = false) :
    ∃ ts, opTokens full c cs = Except.ok ts := by
  simp only [isAllowed, hd, Bool.false_or, Bool.or_eq_true, decide_eq_true_eq] at h
  rcases h with ((((h | h) | h) | h) | h) | h <;> subst h
  · exact ⟨_, rfl⟩
  · by_cases hh : cs.head? = some '('
    · exact ⟨[Token.Plus, Token.Left, Token.Number 0, Token.Min, Token.Number 1,
        Token.Right, Token.Prod], by simp [opTokens, hh]⟩
    · exact ⟨[Token.Min], by simp [opTokens, hh]⟩
  · exact ⟨_, rfl⟩
  · exact ⟨_, rfl⟩
  · exact ⟨_, rfl⟩
  · exact ⟨_, rfl⟩

theorem flushTokens_cases (pend : Option Nat) (c : Char) :
    (∃ pre, flushTokens pend c = Except.ok pre) ∨
      flushTokens pend c = Except.error MathError.NumericOverflow := by
  cases pend with
  | none => exact Or.inl ⟨_, rfl⟩
  | some n =>
    by_cases h : n < u64Bound
    · exact Or.inl ⟨Token.Number n :: if c = '(' then [Token.Prod] else [],
        by simp [flushTokens, h]⟩
    · exact Or.inr (by simp [flushTokens, h])

theorem tokAux_invalid_char (full : List Char) :
    ∀ (l : List Char) (pend : Option Nat), (∃ c ∈ l, isAllowed c = false) →
      (∃ c, isAllowed c = false ∧
          tokAux full pend l = Except.error (MathError.InvalidCharacter c full)) ∨
        tokAux full pend l = Except.error MathError.NumericOverflow := by
  intro l
  induction l with
  | nil =>
    rintro pend ⟨c, hc, -⟩
    exact absurd hc (List.not_mem_nil c)
  | cons c cs ih =>
    rintro pend ⟨x, hx, hxa⟩
    by_cases hd : isDigit c
    · have hxcs : x ∈ cs := by
        rcases List.mem_cons.mp hx with h | h
        · rw [h] at hxa
          rw [isAllowed_of_isDigit hd] at hxa
          cases hxa
        · exact h
      have h2 := ih (some (pend.getD 0 * 10 + digitVal c)) ⟨x, hxcs, hxa⟩
      simpa [tokAux, hd] using h2
    · simp only [tokAux]
      rw [if_neg hd]
      rcases flushTokens_cases pend c with ⟨pre, hpre⟩ | hover
      · simp only [hpre, exceptBind_ok]
        by_cases hca : isAllowed c
        · have hxcs : x ∈ cs := by
            rcases List.mem_cons.mp hx with h | h
            · rw [h] at hxa; rw [hca] at hxa; cases hxa
            · exact h
          obtain ⟨cur, hop⟩ :=
            opTokens_ok full cs hca (by simpa using hd)
          simp only [hop, exceptBind_ok]
          rcases ih none ⟨x, hxcs, hxa⟩ with ⟨c', hc'a, hrec⟩ | hrec
          · simp only [hrec, exceptBind_error]
            exact Or.inl ⟨c', hc'a, rfl⟩
          · simp only [hrec, exceptBind_error]
            exact Or.inr trivial
        · rw [opTokens_invalid full cs (by simpa using hca), exceptBind_error]
          exact Or.inl ⟨c, by simpa using hca, rfl⟩
      · simp only [hover, exceptBind_error]
        exact Or.inr trivial

theorem tokAux_allowed (full : List Char) :
    ∀ (l : List Char) (pend : Option Nat), (∀ c ∈ l, isAllowed c = true) →
      (∃ ts, tokAux full pend l = Except.ok ts) ∨
        tokAux full pend l = Except.error MathError.NumericOverflow := by
  intro l
  induction l with
  | nil =>
    intro pend _
    cases pend with
    | none => exact Or.inl ⟨_, rfl⟩
    | some n =>
      by_cases h : n < u64Bound
      · exact Or.inl ⟨[Token.Number n], by simp [tokAux, h]⟩
      · exact Or.inr (by simp [tokAux, h])
  | cons c cs ih =>
    intro pend hall
    by_cases hd : isDigit c
    · have h2 := ih (some (pend.getD 0 * 10 + digitVal c))
        (fun y hy => hall y (List.mem_cons_of_mem c hy))
      simpa [tokAux, hd] using h2
    · simp only [tokAux]
      rw [if_neg hd]
      rcases flushTokens_cases pend c with ⟨pre, hpre⟩ | hover
      · simp only [hpre, exceptBind_ok]
        obtain ⟨cur, hop⟩ :=
          opTokens_ok full cs (hall c (List.mem_cons_self c cs)) (by simpa using hd)
        simp only [hop, exceptBind_ok]
        rcases ih none (fun y hy => hall y (List.mem_cons_of_mem c hy)) with ⟨ts, hrec⟩ | hrec
        · simp only [hrec, exceptBind_ok]
          exact Or.inl ⟨_, rfl⟩
        · simp only [hrec, exceptBind_error]
          exact Or.inr trivial
      · simp only [hover, exceptBind_error]
        exact Or.inr trivial

/-! ## Claim theorems -/

/-- Claim C1: for every postfix token sequence, when the evaluator reaches
an operator it pops the top value as `a` and the next value as `b` and
pushes `b OP a`; in particular `Min` pushes `b - a` and `Dev` pushes
`b / a` (never `a - b` or `a / b`), as the concrete evaluations
`8-3 = 5` and `8/2 = 4` also witness. -/
theorem C1_operator_operand_order :
    (∀ (ts : List Token) (stack : List FVal) (a b : FVal),
      evalAux (Token.Plus :: ts) (a :: b :: stack) = evalAux ts (FVal.add b a :: stack) ∧
      evalAux (Token.Min :: ts) (a :: b :: stack) = evalAux ts (FVal.sub b a :: stack) ∧
      evalAux (Token.Prod :: ts) (a :: b :: stack) = evalAux ts (FVal.mul b a :: stack) ∧
      evalAux (Token.Dev :: ts) (a :: b :: stack) = evalAux ts (FVal.div b a :: stack)) ∧
    evaluateStr "8-3" = Except.ok (FVal.fin 5) ∧
    evaluateStr "8/2" = Except.ok (FVal.fin 4) :=
  ⟨fun _ _ _ _ => ⟨rfl, rfl, rfl, rfl⟩, by decide, by decide⟩

/-- Claim C2: the converter pops a stacked operator on `>=` (not `>`)
precedence, so equal-precedence operators group left-to-right: for all
number values, the infix sequence `a - b - c` converts to the postfix
sequence `a b - c -`, and evaluating `"8-3-2"` yields `3.0`, not `7.0`. -/
theorem C2_left_associativity :
    (∀ a b c : Nat,
      to_post [Token.Number a, Token.Min, Token.Number b, Token.Min, Token.Number c] =
        [Token.Number a, Token.Number b, Token.Min, Token.Number c, Token.Min]) ∧
    evaluateStr "8-3-2" = Except.ok (FVal.fin 3) ∧
    evaluateStr "8-3-2" ≠ Except.ok (FVal.fin 7) :=
  ⟨fun _ _ _ => rfl, by decide, by decide⟩

/-- Claim C3: whenever the tokenizer reads a `-` whose next character is
`(`, it does not emit a `Min` token; after flushing any pending digit run
it emits exactly the seven tokens `Plus, Left, Number 0, Min, Number 1,
Right, Prod` and resumes scanning at the still-unconsumed `(`; in
particular tokenizing `"12-(13+7)*3"` yields the claimed 15-token
sequence. -/
theorem C3_minus_paren_rewrite :
    (∀ (full cs : List Char) (pend : Option Nat),
      tokAux full pend ('-' :: '(' :: cs) =
        flushTokens pend '-' >>= fun pre =>
          tokAux full none ('(' :: cs) >>= fun rest =>
            Except.ok (pre ++ (Token.Plus :: Token.Left :: Token.Number 0 :: Token.Min ::
              Token.Number 1 :: Token.Right :: Token.Prod :: rest))) ∧
    tokenizeStr "12-(13+7)*3" = Except.ok [Token.Number 12, Token.Plus, Token.Left,
      Token.Number 0, Token.Min, Token.Number 1, Token.Right, Token.Prod, Token.Left,
      Token.Number 13, Token.Plus, Token.Number 7, Token.Right, Token.Prod,
      Token.Number 3] := by
  refine ⟨fun full cs pend => ?_, by decide⟩
  cases pend with
  | none => rfl
  | some n =>
    by_cases h : n < u64Bound <;>
      simp [tokAux, flushTokens, opTokens, h, exceptBind_ok, exceptBind_error,
        show isDigit '-' = false from rfl, show isDigit '(' = false from rfl]

/-- Claim C4: an implicit `Prod` token is inserted when a digit run is
immediately followed by `(` (so `"2(3+4)"` evaluates to `14.0`), and this
insertion does not trigger for `)(` adjacency: tokenizing `"(2)(3)"`
yields six tokens containing no `Prod` at all. -/
theorem C4_implicit_multiplication :
    evaluateStr "2(3+4)" = Except.ok (FVal.fin 14) ∧
    tokenizeStr "2(3+4)" = Except.ok [Token.Number 2, Token.Prod, Token.Left,
      Token.Number 3, Token.Plus, Token.Number 4, Token.Right] ∧
    tokenizeStr "(2)(3)" = Except.ok [Token.Left, Token.Number 2, Token.Right,
      Token.Left, Token.Number 3, Token.Right] ∧
    Token.Prod ∉ [Token.Left, Token.Number 2, Token.Right,
      Token.Left, Token.Number 3, Token.Right] :=
  ⟨by decide, by decide, by decide, by decide⟩

/-- Claim C5, counterexample: `"12++"` consists only of the allowed
characters and is well-balanced, yet the pipeline does not complete
cleanly: it fails with the stack-underflow panic (embedded as
`StackUnderflow`), refuting "terminates without panicking" as stated. -/
theorem C5_counterexample :
    "12++".toList.all isAllowed = true ∧
    balancedBrackets "12++".toList = true ∧
    evaluateStr "12++" = Except.error MathError.StackUnderflow :=
  ⟨by decide, by decide, by decide⟩

/-- Claim C5, amended: for every input over the characters
`[0-9+-*/()]` the pipeline terminates (all stages are total functions);
tokenization never fails with `InvalidCharacter` on such input — it either
succeeds or fails with the digit-run-overflow panic (`NumericOverflow`) —
but evaluation may fail with a stack panic, e.g. `"12++"` fails with
`StackUnderflow`. -/
theorem C5_pipeline_total :
    (∀ l : List Char, (∀ c ∈ l, isAllowed c = true) →
      (∃ ts, tokenize l = Except.ok ts) ∨
        tokenize l = Except.error MathError.NumericOverflow) ∧
    evaluateStr "12++" = Except.error MathError.StackUnderflow :=
  ⟨fun l h => tokAux_allowed l l none h, by decide⟩

/-- Claim C5, witness for the amended theorem at the concrete input
`"1+2"`. -/
theorem C5_witness :
    ((∃ ts, tokenize ['1', '+', '2'] = Except.ok ts) ∨
      tokenize ['1', '+', '2'] = Except.error MathError.NumericOverflow) ∧
    evaluateStr "12++" = Except.error MathError.StackUnderflow :=
  ⟨C5_pipeline_total.1 ['1', '+', '2'] (by decide), C5_pipeline_total.2⟩

/-- Claim C6, counterexample: the converter never fails — on the input
`"(12"` it produces the token sequence `[Number 12, Left]` (flushing the
unmatched `Left` marker into the output) instead of an unbalanced-bracket
error, and evaluating `"(12"` then fails with `StackUnderflow` (the failing
`pop` inside the evaluator's operator branch), not with any
unbalanced-bracket error (no such error exists in the code). -/
theorem C6_counterexample :
    to_post [Token.Left, Token.Number 12] = [Token.Number 12, Token.Left] ∧
    evaluateStr "(12" = Except.error MathError.StackUnderflow :=
  ⟨by decide, by decide⟩

/-- Claim C6, amended: the conversion is total and has no
unbalanced-bracket failure: scanning a `Right` with an empty operator
stack silently continues, unmatched `Left` markers left on the stack at end
of input are flushed into the postfix output, and consequently
`Expression::new("(12")` succeeds with tokens `[Number 12, Left]` whose
evaluation fails with `StackUnderflow`. -/
theorem C6_unbalanced_brackets_behavior :
    (∀ ts : List Token, toPostAux (Token.Right :: ts) [] = toPostAux ts []) ∧
    (∀ opStack : List Token, toPostAux [] opStack = opStack) ∧
    Expression.new "(12".toList =
      Except.ok { original := "(12".toList, tokens := [Token.Number 12, Token.Left] } ∧
    evaluateStr "(12" = Except.error MathError.StackUnderflow :=
  ⟨fun _ => rfl, fun _ => rfl, by decide, by decide⟩

/-- Claim C7: whenever the evaluator encounters a non-`Number` token with
fewer than two values on the value stack, evaluation fails with
`StackUnderflow` (the failing `pop`); in particular evaluating `"12++"`
fails with `StackUnderflow`. -/
theorem C7_stack_underflow :
    (∀ (op : Token) (ts : List Token) (stack : List FVal),
      op.isNumber = false → stack.length < 2 →
      evalAux (op :: ts) stack = Except.error MathError.StackUnderflow) ∧
    evaluateStr "12++" = Except.error MathError.StackUnderflow := by
  constructor
  · intro op ts stack hop hlen
    cases op with
    | Number n => exact absurd hop (by simp [Token.isNumber])
    | Plus =>
      rcases stack with - | ⟨a, - | ⟨b, r⟩⟩
      · rfl
      · rfl
      · simp only [List.length_cons] at hlen; omega
    | Min =>
      rcases stack with - | ⟨a, - | ⟨b, r⟩⟩
      · rfl
      · rfl
      · simp only [List.length_cons] at hlen; omega
    | Prod =>
      rcases stack with - | ⟨a, - | ⟨b, r⟩⟩
      · rfl
      · rfl
      · simp only [List.length_cons] at hlen; omega
    | Dev =>
      rcases stack with - | ⟨a, - | ⟨b, r⟩⟩
      · rfl
      · rfl
      · simp only [List.length_cons] at hlen; omega
    | Left =>
      rcases stack with - | ⟨a, - | ⟨b, r⟩⟩
      · rfl
      · rfl
      · simp only [List.length_cons] at hlen; omega
    | Right =>
      rcases stack with - | ⟨a, - | ⟨b, r⟩⟩
      · rfl
      · rfl
      · simp only [List.length_cons] at hlen; omega
  · decide

/-- Claim C7, witness: the evaluator on the single operator `Plus` with an
empty stack underflows, and so does the pipeline on `"12++"`. -/
theorem C7_witness :
    evalAux [Token.Plus] [] = Except.error MathError.StackUnderflow ∧
    evaluateStr "12++" = Except.error MathError.StackUnderflow :=
  ⟨C7_stack_underflow.1 Token.Plus [] [] (by decide) (by decide), C7_stack_underflow.2⟩

/-- Claim C8, counterexample: when more than one value remains after all
postfix tokens are consumed, the evaluator does NOT fail: with the two
leftover values `3` (top) and `2` it returns `3`, and the full pipeline on
`"(2)(3)"` (whose postfix sequence is `[Number 2, Number 3]`) returns
`3.0` instead of an `EmptyExpression` error. -/
theorem C8_counterexample :
    evalAux [] [FVal.fin 3, FVal.fin 2] = Except.ok (FVal.fin 3) ∧
    evaluateStr "(2)(3)" = Except.ok (FVal.fin 3) :=
  ⟨by decide, by decide⟩

/-- Claim C8, amended: the final `stack.pop().unwrap()` fails
(`EmptyExpression`) only when ZERO values remain; otherwise the most
recently pushed value is returned, even when more than one value remains
(e.g. `"(2)(3)"` yields `3.0`). -/
theorem C8_final_stack_behavior :
    evalAux [] [] = Except.error MathError.EmptyExpression ∧
    (∀ (v : FVal) (rest : List FVal), evalAux [] (v :: rest) = Except.ok v) ∧
    evaluateStr "(2)(3)" = Except.ok (FVal.fin 3) :=
  ⟨rfl, fun _ _ => rfl, by decide⟩

/-- Claim C9, counterexample: the input `"99999999999999999999x"` contains
the disallowed character `x`, yet tokenization fails with the digit-run
overflow panic (`NumericOverflow`, value above `u64::MAX`), which is hit
before the scan reaches `x` — not with `InvalidCharacter`. -/
theorem C9_counterexample :
    tokenize "99999999999999999999x".toList = Except.error MathError.NumericOverflow ∧
    'x' ∈ "99999999999999999999x".toList ∧
    isAllowed 'x' = false :=
  ⟨by decide, by decide, by decide⟩

/-- Claim C9, amended: for every input containing a character outside
`[0-9+-*/()]`, tokenization fails: with `InvalidCharacter` naming an
offending character and the full input, unless a digit run whose value
exceeds the `u64` range is parsed first, in which case it fails with the
overflow panic (`NumericOverflow`). -/
theorem C9_invalid_character :
    ∀ l : List Char, (∃ c ∈ l, isAllowed c = false) →
      (∃ c, isAllowed c = false ∧
          tokenize l = Except.error (MathError.InvalidCharacter c l)) ∨
        tokenize l = Except.error MathError.NumericOverflow :=
  fun l h => tokAux_invalid_char l l none h

/-- Claim C9, witness at the concrete input `"a"`. -/
theorem C9_witness :
    (∃ c, isAllowed c = false ∧
        tokenize ['a'] = Except.error (MathError.InvalidCharacter c ['a'])) ∨
      tokenize ['a'] = Except.error MathError.NumericOverflow :=
  C9_invalid_character ['a'] ⟨'a', by decide, by decide⟩

/-- Claim C10: division by a zero-valued top operand does not fail; it
follows floating-point semantics, so evaluating `"1/0"` yields positive
infinity rather than an error. -/
theorem C10_division_by_zero :
    evaluateStr "1/0" = Except.ok FVal.inf ∧
    FVal.div (FVal.fin 1) (FVal.fin 0) = FVal.inf :=
  ⟨by decide, by decide⟩
